import Mathlib

/-!
Verification development for the layout-reconstruction core of the
`youdaoocr` repository, embedded shallowly from `ocr_json2text_line.py`.

Python values that flow out of `json.load` are modelled by `PyVal`;
Python exceptions that the code can raise are modelled by `PyErr` and
fallible code returns `Except PyErr α`.  Numeric computation done in
Python floats is modelled in exact rational arithmetic (`ℚ`).
-/

/-- A Python value as produced by `json.load`: `None`, `bool`, `int`,
`float` (modelled as `ℚ`), `str`, `list`, `dict` (association list,
keys are strings as in JSON). -/
inductive PyVal where
  | none
  | bool (b : Bool)
  | int (n : ℤ)
  | float (q : ℚ)
  | str (s : String)
  | list (xs : List PyVal)
  | dict (kvs : List (String × PyVal))

/-- The Python exception classes that the converter code can raise.
Each carries its message (`str(e)`); messages of builtin exceptions are
reproduced in abbreviated CPython style. -/
inductive PyErr where
  | keyError (msg : String)
  | typeError (msg : String)
  | valueError (msg : String)
  | attributeError (msg : String)
deriving DecidableEq

/-- `str(e)` of an exception: its message. -/
def PyErr.msg : PyErr → String
  | .keyError m => m
  | .typeError m => m
  | .valueError m => m
  | .attributeError m => m

/-- The Python type name of a value (used in builtin error messages). -/
def pyTypeName : PyVal → String
  | .none => "NoneType"
  | .bool _ => "bool"
  | .int _ => "int"
  | .float _ => "float"
  | .str _ => "str"
  | .list _ => "list"
  | .dict _ => "dict"

/-- Python truthiness: `None`, `False`, `0`, `0.0`, `""`, `[]`, `{}`
are falsy, everything else is truthy. -/
def pyTruthy : PyVal → Bool
  | .none => false
  | .bool b => b
  | .int n => n != 0
  | .float q => q != 0
  | .str s => !s.isEmpty
  | .list xs => !xs.isEmpty
  | .dict kvs => !kvs.isEmpty

/-- Python whitespace characters stripped by `str.strip()` (the six
ASCII whitespace characters; Unicode spaces are not modelled). -/
def isPySpace (c : Char) : Bool :=
  c.toNat = 32 || c.toNat = 9 || c.toNat = 10 || c.toNat = 13 ||
  c.toNat = 11 || c.toNat = 12

/-- Python `str.strip()`: drop leading and trailing whitespace. -/
def pyStrip (s : String) : String :=
  ⟨(s.toList.dropWhile isPySpace).reverse.dropWhile isPySpace |>.reverse⟩

/-- ASCII decimal digit test. -/
def isDigitCh (c : Char) : Bool := 48 ≤ c.toNat && c.toNat ≤ 57

/-- A valid digit run for Python `int(str)`: non-empty, starts and ends
with a digit, consists of digits and underscores, with no two adjacent
underscores (Python allows single underscores between digits). -/
def validDigits (l : List Char) : Bool :=
  !l.isEmpty &&
  l.all (fun c => isDigitCh c || c.toNat = 95) &&
  (match l.head? with | some c => isDigitCh c | _ => false) &&
  (match l.getLast? with | some c => isDigitCh c | _ => false) &&
  (l.zip l.tail).all (fun p => !(p.1.toNat = 95 && p.2.toNat = 95))

/-- Numeric value of a digit run (underscores skipped). -/
def digitsValue (l : List Char) : ℤ :=
  ((l.filter isDigitCh).foldl (fun a c => 10 * a + (c.toNat - 48)) 0 : ℕ)

/-- Python `int(s)` on a string: strips whitespace, optional sign,
decimal digits (single underscores between digits allowed).  Returns
`none` where CPython raises `ValueError`.  Unicode digits are not
modelled. -/
def pyInt? (s : String) : Option ℤ :=
  match (pyStrip s).toList with
  | [] => Option.none
  | c :: rest =>
      if c.toNat = 43 then
        if validDigits rest then some (digitsValue rest) else Option.none
      else if c.toNat = 45 then
        if validDigits rest then some (-(digitsValue rest)) else Option.none
      else if validDigits (c :: rest) then some (digitsValue (c :: rest))
      else Option.none

/-- Truncation toward zero, as Python `int(float)`. -/
def ratTrunc (q : ℚ) : ℤ := if 0 ≤ q then ⌊q⌋ else ⌈q⌉

/-- Python `round(x)` on a real value: round half to even, idealized in
exact arithmetic (binary-float representation effects not modelled). -/
def pyRound (q : ℚ) : ℤ :=
  let f := ⌊q⌋
  let r := q - f
  if r < 1/2 then f
  else if 1/2 < r then f + 1
  else if f % 2 = 0 then f else f + 1

/-- Python `round(x, n)` for `n` decimal digits, idealized. -/
def roundQ (n : ℕ) (q : ℚ) : ℚ := (pyRound (q * 10 ^ n) : ℚ) / 10 ^ n

/-- `d.get(key, default)` on a Python dict; raises `AttributeError` on
any non-dict value (as Python does for `json.load` output, none of
whose other types has a `get` method). -/
def pyGet (v : PyVal) (key : String) (default : PyVal) : Except PyErr PyVal :=
  match v with
  | .dict kvs => pure ((kvs.lookup key).getD default)
  | _ => throw (.attributeError
      ("'" ++ pyTypeName v ++ "' object has no attribute 'get'"))

/-- `iter(v)` consumed into a list: lists yield elements, strings yield
their characters as 1-character strings, dicts yield their keys; other
`json.load` types raise `TypeError`. -/
def pyIter (v : PyVal) : Except PyErr (List PyVal) :=
  match v with
  | .list xs => pure xs
  | .str s => pure (s.toList.map (fun c => PyVal.str ⟨[c]⟩))
  | .dict kvs => pure (kvs.map (fun kv => PyVal.str kv.1))
  | _ => throw (.typeError
      ("'" ++ pyTypeName v ++ "' object is not iterable"))

/-- `ord(v)`: requires a 1-character string, else `TypeError`. -/
def pyOrd (v : PyVal) : Except PyErr ℕ :=
  match v with
  | .str s =>
      match s.toList with
      | [c] => pure c.toNat
      | _ => throw (.typeError "ord() expected a character")
  | _ => throw (.typeError
      ("ord() expected string of length 1, but " ++ pyTypeName v ++ " found"))

/-- A value used where a `str` method (`.split`, `.strip`) is called:
non-strings raise `AttributeError`. -/
def pyStr (v : PyVal) (attr : String) : Except PyErr String :=
  match v with
  | .str s => pure s
  | _ => throw (.attributeError
      ("'" ++ pyTypeName v ++ "' object has no attribute '" ++ attr ++ "'"))

/-- Python `int(v)` for `json.load` values: ints pass through, bools map
to 0/1, floats truncate, strings parse (`ValueError` on failure), other
types raise `TypeError`. -/
def pyIntOf (v : PyVal) : Except PyErr ℤ :=
  match v with
  | .int n => pure n
  | .bool b => pure (if b then 1 else 0)
  | .float q => pure (ratTrunc q)
  | .str s =>
      match pyInt? s with
      | some n => pure n
      | Option.none => throw (.valueError
          ("invalid literal for int() with base 10: '" ++ s ++ "'"))
  | _ => throw (.typeError
      ("int() argument must be a string or a number, not '" ++ pyTypeName v ++ "'"))

/-- Python `str(v)` (never raises; representations of composite values
are abbreviated — the only use, the `style` field, is never read by this
converter). -/
def pyStrOf : PyVal → String
  | .str s => s
  | .int n => toString n
  | .bool b => if b then "True" else "False"
  | .none => "None"
  | .float q => toString q
  | .list _ => "[...]"
  | .dict _ => "{...}"

/-- Python `v == s` against a string literal: equality across distinct
`json.load` types is `False` (only the str/str case can be true here). -/
def pyEqStr (v : PyVal) (s : String) : Bool :=
  match v with
  | .str t => t == s
  | _ => false

/-- Whether a `PyErr` is caught by `except (KeyError, TypeError, ValueError)`
at the top of `convert_json_to_text`. -/
def isCaught : PyErr → Bool
  | .keyError _ => true
  | .typeError _ => true
  | .valueError _ => true
  | .attributeError _ => false

/-! ## Geometry model (`BoundingBox` and its parser) -/

/-- `BoundingBox` dataclass: integer `x, y, width, height`. -/
structure BoundingBox where
  x : ℤ
  y : ℤ
  width : ℤ
  height : ℤ
deriving DecidableEq

/-- Python `s.split(',')` over the character list: split on every comma,
keeping empty segments (`"".split(',') == ['']`). -/
def splitOnComma : List Char → List (List Char)
  | [] => [[]]
  | c :: rest =>
      let r := splitOnComma rest
      if c.toNat = 44 then [] :: r
      else
        match r with
        | h :: t => (c :: h) :: t
        | [] => [[c]]

/-- The usable comma-separated tokens of a bounding-box string:
`[p.strip() for p in bbox_str.split(',') if p.strip()]`. -/
def usableParts (s : String) : List String :=
  ((splitOnComma s.toList).map (fun l => pyStrip ⟨l⟩)).filter (fun p => p ≠ "")

/-- The axis-aligned bounding rectangle of the four corner points, as
computed by the 8-token branch of `from_string` (`min`/`max` folded left
to right as Python's `min(xs)`/`max(xs)` do). -/
def quadBox (x1 y1 x2 y2 x3 y3 x4 y4 : ℤ) : BoundingBox :=
  let minx := min (min (min x1 x2) x3) x4
  let maxx := max (max (max x1 x2) x3) x4
  let miny := min (min (min y1 y2) y3) y4
  let maxy := max (max (max y1 y2) y3) y4
  ⟨minx, miny, maxx - minx, maxy - miny⟩

/-- `map(int, tokens)` consumed strictly, all-or-nothing: `none` when
any token makes `int` raise `ValueError`. -/
def intsOfTokens : List String → Option (List ℤ)
  | [] => some []
  | t :: rest =>
      match pyInt? t, intsOfTokens rest with
      | some n, some ns => some (n :: ns)
      | _, _ => Option.none

/-- `BoundingBox.from_string`: parses either `"x,y,w,h"` (4 tokens) or
`"x1,y1,…,x4,y4"` (8 tokens, reduced to the axis-aligned bounding
rectangle); any `ValueError` while converting tokens with `int`, and
any other token count, yields the `(0,0,0,0)` sentinel. -/
def BoundingBox.from_string (s : String) : BoundingBox :=
  let parts := usableParts s
  if parts.length = 4 then
    match intsOfTokens parts with
    | some [x, y, w, h] => ⟨x, y, w, h⟩
    | _ => ⟨0, 0, 0, 0⟩
  else if parts.length = 8 then
    match intsOfTokens parts with
    | some [x1, y1, x2, y2, x3, y3, x4, y4] => quadBox x1 y1 x2 y2 x3 y3 x4 y4
    | _ => ⟨0, 0, 0, 0⟩
  else ⟨0, 0, 0, 0⟩

/-! ## Document model (`Word`, `Line`, `Region`) and their `from_dict`

The Python dataclasses do not enforce field types: a field taken from
the JSON dict keeps whatever type the JSON supplied, and a mismatch only
raises later, at use time.  Fields used in a dynamically-typed way
(`word`, `text`, `lang`, `dir`) therefore stay `PyVal`; fields that
`from_dict` itself converts (`boundingBox` through `from_string`,
`text_height` through `int`, `style` through `str`) are typed. -/

structure Word where
  word : PyVal
  boundingBox : BoundingBox

structure Line where
  text : PyVal
  words : List Word
  boundingBox : BoundingBox
  text_height : ℤ
  style : String

structure Region where
  lang : PyVal
  dir : PyVal
  lines : List Line
  boundingBox : BoundingBox

/-- `BoundingBox.from_string` applied to a JSON value: the Python
parser immediately calls `bbox_str.split(',')`, so a non-string raises
`AttributeError` (not caught by `from_string`'s own `except` clause,
which lists only `ValueError` and `IndexError`). -/
def fromStringPy (v : PyVal) : Except PyErr BoundingBox := do
  let s ← pyStr v "split"
  pure (BoundingBox.from_string s)

/-- `Word.from_dict`. -/
def Word.from_dict (data : PyVal) : Except PyErr Word := do
  let w ← pyGet data "word" (.str "")
  let bbV ← pyGet data "boundingBox" (.str "0,0,0,0")
  let bb ← fromStringPy bbV
  pure ⟨w, bb⟩

/-- `Line.from_dict` (the `words` list is built first, as in the
source; then the constructor arguments evaluate left to right). -/
def Line.from_dict (data : PyVal) : Except PyErr Line := do
  let wordsV ← pyGet data "words" (.list [])
  let wordItems ← pyIter wordsV
  let words ← wordItems.mapM Word.from_dict
  let text ← pyGet data "text" (.str "")
  let bbV ← pyGet data "boundingBox" (.str "0,0,0,0")
  let bb ← fromStringPy bbV
  let thV ← pyGet data "text_height" (.int 0)
  let th ← pyIntOf (if pyTruthy thV then thV else .int 0)
  let stV ← pyGet data "style" (.str "")
  let st := pyStrOf (if pyTruthy stV then stV else .str "")
  pure ⟨text, words, bb, th, st⟩

/-- `Region.from_dict` (the `lines` list is built first, as in the
source). -/
def Region.from_dict (data : PyVal) : Except PyErr Region := do
  let linesV ← pyGet data "lines" (.list [])
  let lineItems ← pyIter linesV
  let lines ← lineItems.mapM Line.from_dict
  let lang ← pyGet data "lang" (.str "")
  let dir ← pyGet data "dir" (.str "h")
  let bbV ← pyGet data "boundingBox" (.str "0,0,0,0")
  let bb ← fromStringPy bbV
  pure ⟨lang, dir, lines, bb⟩

/-! ## Layout constant estimator -/

/-- The CJK Unified Ideograph ranges tested by `_contains_cjk`. -/
def isCJKCode (code : ℕ) : Bool :=
  (0x4E00 ≤ code && code ≤ 0x9FFF) ||
  (0x3400 ≤ code && code ≤ 0x4DBF) ||
  (0x20000 ≤ code && code ≤ 0x2A6DF) ||
  (0x2A700 ≤ code && code ≤ 0x2B73F) ||
  (0x2B740 ≤ code && code ≤ 0x2B81F) ||
  (0x2B820 ≤ code && code ≤ 0x2CEAF)

/-- Loop body of `_contains_cjk`: `for ch in s: if ord(ch) in ranges:
return True`, short-circuiting at the first CJK character. -/
def containsCJKItems : List PyVal → Except PyErr Bool
  | [] => pure false
  | c :: rest => do
      let code ← pyOrd c
      if isCJKCode code then pure true else containsCJKItems rest

/-- `_contains_cjk(s)`: iterates `s` (raising `TypeError` on a
non-iterable, or on elements `ord` rejects) and tests the CJK ranges. -/
def containsCJK (v : PyVal) : Except PyErr Bool := do
  let items ← pyIter v
  containsCJKItems items

/-- The median as computed by `statistics.median`: sort ascending; odd
length takes the middle element, even length averages the two middle
elements. -/
def pyMedian (l : List ℚ) : ℚ :=
  let s := l.insertionSort (· ≤ ·)
  let n := l.length
  if n % 2 = 1 then s.getD (n / 2) 0
  else (s.getD (n / 2 - 1) 0 + s.getD (n / 2) 0) / 2

/-- `_robust_median`: `0.0` on an empty list, else the median (the
`except StatisticsError` fallback to `values[0]` is unreachable for
non-empty input). -/
def robustMedian (l : List ℚ) : ℚ :=
  if l.isEmpty then 0 else pyMedian l

/-- The line-height samples one `Line` contributes (lines 170–174 of
the source): the line bbox height if positive, else the `text_height`
hint if non-zero (Python truthiness of an int). -/
def lineSamplesOfLine (l : Line) : List ℚ :=
  if 0 < l.boundingBox.height then [(l.boundingBox.height : ℚ)]
  else if l.text_height ≠ 0 then [(l.text_height : ℚ)]
  else []

/-- The char-height samples one `Word` contributes (lines 176–180):
skip falsy words; a word containing a CJK ideograph with a positive
bbox height contributes that height.  `_contains_cjk` can raise
`TypeError` when `word` is a non-string truthy value. -/
def charSamplesOfWord (w : Word) : Except PyErr (List ℚ) :=
  if pyTruthy w.word then do
    let b ← containsCJK w.word
    pure (if b && 0 < w.boundingBox.height then [(w.boundingBox.height : ℚ)] else [])
  else pure []

/-- Sample collection over all regions (lines 164–180): returns
`(char_heights, line_heights)` in source order. -/
def collectSamples (regions : List Region) : Except PyErr (List ℚ × List ℚ) := do
  let allLines := (regions.map Region.lines).flatten
  let perLine ← allLines.mapM (fun l => do
      let cs ← l.words.mapM charSamplesOfWord
      pure (cs.flatten, lineSamplesOfLine l))
  pure ((perLine.map Prod.fst).flatten, (perLine.map Prod.snd).flatten)

/-- The previous constants as extracted from the persisted store by
lines 192–197: `float(loaded.get('char_height', 0) or 0)`,
`float(loaded.get('line_height_multiplier', 0) or 0)`, and the two
`sample_counts` ints.  `_load_constants` performs file I/O and is
modelled by this parameter; a missing, unreadable or corrupt store file
makes `_load_constants` return `{}`, from which those lines extract
all zeros (`noHistory` below). -/
structure LoadedConstants where
  charHeight : ℚ
  multiplier : ℚ
  charN : ℤ
  lineN : ℤ
deriving DecidableEq

/-- The extraction of lines 192–197 applied to an empty store dict. -/
def noHistory : LoadedConstants := ⟨0, 0, 0, 0⟩

/-- This document's raw sample counts, the third component of the
estimator's return value. -/
structure SampleCounts where
  char : ℕ
  line : ℕ
deriving DecidableEq

/-- The record written back by `_save_constants` (lines 240–245); the
`updated_at` wall-clock timestamp is not modelled. -/
structure SavedConstants where
  charHeight : ℚ
  multiplier : ℚ
  charN : ℤ
  lineN : ℤ
deriving DecidableEq

/-- Everything `estimate_layout_constants` produces: the returned
`(char_height, multiplier, sample_counts)` triple plus the record it
persists. -/
structure EstimateResult where
  charHeight : ℚ
  multiplier : ℚ
  counts : SampleCounts
  saved : SavedConstants
deriving DecidableEq

/-- `current_char_height` (line 182): the robust median of the char
samples when there are at least 5 of them, else `0.0`. -/
def currentCharHeight (charHs : List ℚ) : ℚ :=
  if 5 ≤ charHs.length then robustMedian charHs else 0

/-- `current_line_height` (line 183). -/
def currentLineHeight (lineHs : List ℚ) : ℚ :=
  if 3 ≤ lineHs.length then robustMedian lineHs else 0

/-- `current_multiplier` (lines 186–189): when both current estimates
are positive, the median of per-sample ratios `lh / current_char_height`
over the positive line samples; else `0.0`. -/
def currentMultiplier (charHs lineHs : List ℚ) : ℚ :=
  let cch := currentCharHeight charHs
  if 0 < cch ∧ 0 < currentLineHeight lineHs then
    robustMedian ((lineHs.filter (fun lh => 0 < lh)).map (fun lh => lh / cch))
  else 0

/-- Lines 182–247 of `estimate_layout_constants`, from the collected
samples and the extracted previous constants: sparsity fallback,
sample-weighted blending with history (the `1e-6` guard in the weight's
denominator included), conservative defaults, clamping of the
multiplier into `[1.2, 2.0]`, and the capped count update that is
persisted. -/
def estimateCore (charHs lineHs : List ℚ) (prev : LoadedConstants) : EstimateResult :=
  let cch := currentCharHeight charHs
  let cmul := currentMultiplier charHs lineHs
  let charN : ℕ := charHs.length
  let lineN : ℕ := lineHs.length
  let sparseChar := charN < 5
  let sparseLine := lineN < 3
  let fch1 :=
    if 0 < prev.charHeight then
      if sparseChar ∨ cch ≤ 0 then prev.charHeight
      else
        let alphaChar := min (7/10) ((charN : ℚ) / ((charN : ℚ) + (prev.charN : ℚ) + 1/1000000))
        alphaChar * cch + (1 - alphaChar) * prev.charHeight
    else cch
  let fmul1 :=
    if 0 < prev.multiplier then
      if sparseLine ∨ cmul ≤ 0 then prev.multiplier
      else
        let alphaLine := min (7/10) ((lineN : ℚ) / ((lineN : ℚ) + (prev.lineN : ℚ) + 1/1000000))
        alphaLine * cmul + (1 - alphaLine) * prev.multiplier
    else cmul
  let fch := if fch1 ≤ 0 then 32 else fch1
  let fmul2 := if fmul1 ≤ 0 then 3/2 else fmul1
  let fmul := max (6/5) (min 2 fmul2)
  { charHeight := fch
    multiplier := fmul
    counts := ⟨charN, lineN⟩
    saved :=
      { charHeight := roundQ 2 fch
        multiplier := roundQ 3 fmul
        charN := min 1000 (prev.charN + (charN : ℤ))
        lineN := min 1000 (prev.lineN + (lineN : ℤ)) } }

/-- `estimate_layout_constants(regions)`: collect the samples (which
can raise through `_contains_cjk` on ill-typed words) and run the pure
estimation over them and the loaded history. -/
def estimate_layout_constants (regions : List Region) (prev : LoadedConstants) :
    Except PyErr EstimateResult := do
  let s ← collectSamples regions
  pure (estimateCore s.1 s.2 prev)

/-! ## Fragment clusterer and spacing reconstructor -/

/-- A horizontal text fragment `{text, x, y, width, height}` as built by
`_collect_horizontal_fragments` (`text` is already stripped there, so it
is a plain string; the geometry fields are ints). -/
structure Frag where
  text : String
  x : ℤ
  y : ℤ
  width : ℤ
  height : ℤ
deriving DecidableEq

/-- The vertical midpoint `y + height / 2.0` stored on each fragment
before clustering. -/
def Frag.yMid (f : Frag) : ℚ := (f.y : ℚ) + (f.height : ℚ) / 2

/-- `fragments.sort(key=lambda frag: frag['y_mid'])`: Python's sort is
stable; `insertionSort` with `≤` preserves the order of equal keys. -/
def sortByYMid (l : List Frag) : List Frag :=
  l.insertionSort (fun a b => a.yMid ≤ b.yMid)

/-- `sorted(current_group, key=lambda frag: frag['x'])`. -/
def sortByX (l : List Frag) : List Frag :=
  l.insertionSort (fun a b => a.x ≤ b.x)

/-- The clustering loop of `_group_fragments_by_line` (lines 352–368):
`cur` is the current group (always non-empty here), `cm` its running
mean midpoint.  A fragment within `threshold` of the running mean joins
the group and updates the mean as an online average; otherwise the
group is closed (sorted by `x`) and a fresh group starts. -/
def groupGo (threshold : ℚ) : List Frag → List Frag → ℚ → List (List Frag)
  | [], cur, _ => [sortByX cur]
  | item :: rest, cur, cm =>
      if |item.yMid - cm| ≤ threshold then
        groupGo threshold rest (cur ++ [item])
          ((cm * (cur.length : ℚ) + item.yMid) / ((cur.length : ℚ) + 1))
      else
        sortByX cur :: groupGo threshold rest [item] item.yMid

/-- `_group_fragments_by_line(fragments, line_spacing, ratio)`: empty
input yields no groups; otherwise sort by vertical midpoint and run the
single-pass clustering with `threshold = max(1.0, ratio * line_spacing)`.
(The first loop iteration always lands in the `else` branch because
`current_group` starts empty, which the `match` below mirrors.) -/
def _group_fragments_by_line (fragments : List Frag) (line_spacing ratio : ℚ) :
    List (List Frag) :=
  match sortByYMid fragments with
  | [] => []
  | f :: rest => groupGo (max 1 (ratio * line_spacing)) rest [f] f.yMid

/-- `max(item['y'] + item['height'] for item in row)`: the bottom edge
of a row (the `getD 0` is never reached on the non-empty rows the code
applies this to). -/
def rowMaxBottom (row : List Frag) : ℤ :=
  ((row.map (fun f => f.y + f.height)).max?).getD 0

/-- `min(item['y'] for item in row)`: the top edge of a row. -/
def rowMinY (row : List Frag) : ℤ :=
  ((row.map Frag.y).min?).getD 0

/-- `gap_px = max(0.0, float(curr_top - prev_bottom))`. -/
def rowGapPx (prevRow currRow : List Frag) : ℚ :=
  max 0 ((rowMinY currRow : ℚ) - (rowMaxBottom prevRow : ℚ))

/-- `_compute_blank_lines_between(prev_row, curr_row, line_spacing)`
(lines 302–313): `gap_px = max(0, curr_top − prev_bottom)`,
`blanks = max(0, int(gap_px // line_spacing))`. -/
def _compute_blank_lines_between (prevRow currRow : List Frag) (line_spacing : ℚ) : ℤ :=
  if prevRow.isEmpty || currRow.isEmpty || line_spacing ≤ 0 then 0
  else max 0 ⌊rowGapPx prevRow currRow / line_spacing⌋

/-- `_compute_row_indent_spaces(row, base_left, char_height)` (lines
291–300): distance from the row head to the document's left margin in
"two spaces per character height" units, with the `char_height ≤ 0 →
32.0` guard. -/
def _compute_row_indent_spaces (row : List Frag) (baseLeft : ℤ) (charHeight : ℚ) : ℤ :=
  if row.isEmpty then 0
  else
    let ch := if charHeight ≤ 0 then 32 else charHeight
    let leftX := ((row.map Frag.x).min?).getD 0
    let indentPx := max 0 (leftX - baseLeft)
    max 0 (pyRound (((indentPx : ℚ) / ch) * 2))

/-- Loop body of `_join_fragments_with_spacing`: accumulate text parts,
carrying the previous fragment's right edge. -/
def joinGo (ch : ℚ) : List Frag → ℤ → String
  | [], _ => ""
  | frag :: rest, prevRight =>
      let gapPx := max 0 (frag.x - prevRight)
      let spaces := pyRound (((gapPx : ℚ) / ch) * 2)
      (if 0 < spaces then String.mk (List.replicate spaces.toNat (Char.ofNat 32)) else "")
        ++ frag.text ++ joinGo ch rest (frag.x + frag.width)

/-- `_join_fragments_with_spacing(row, char_height)` (lines 372–392):
concatenate a row's fragments, converting each pixel gap into spaces at
two spaces per character height (`char_height ≤ 0 → 32.0` guard). -/
def _join_fragments_with_spacing (row : List Frag) (charHeight : ℚ) : String :=
  match row with
  | [] => ""
  | first :: rest =>
      let ch := if charHeight ≤ 0 then 32 else charHeight
      first.text ++ joinGo ch rest (first.x + first.width)

/-! ## Text line assembler -/

/-- The fragments one horizontal `Line` contributes (lines 323–335):
falsy text is skipped; `line.boundingBox or region.boundingBox` always
resolves to the line's own box because a dataclass instance is truthy;
`.strip()` on a truthy non-string text raises `AttributeError`. -/
def fragsOfLine (l : Line) : Except PyErr (List Frag) :=
  if pyTruthy l.text then do
    let s ← pyStr l.text "strip"
    pure [⟨pyStrip s, l.boundingBox.x, l.boundingBox.y,
           l.boundingBox.width, l.boundingBox.height⟩]
  else pure []

/-- `_collect_horizontal_fragments(regions)` (lines 315–336). -/
def _collect_horizontal_fragments (regions : List Region) : Except PyErr (List Frag) := do
  let hRegions := regions.filter (fun r => pyEqStr r.dir "h")
  let perLine ← ((hRegions.map Region.lines).flatten).mapM fragsOfLine
  pure perLine.flatten

/-- The row loop of `convert_regions_to_text_lines` (lines 261–275):
blank lines are computed against the previously *emitted* row (a row
whose joined text strips to empty is skipped without becoming
`prev_row`, though any blank lines computed for it are still emitted). -/
def assembleRows (charH lineSpacing : ℚ) (baseLeft : ℤ) :
    List (List Frag) → Option (List Frag) → List String
  | [], _ => []
  | row :: rest, prevRow =>
      let blanks : ℤ :=
        match prevRow with
        | some pr => _compute_blank_lines_between pr row lineSpacing
        | Option.none => 0
      let blankLines := List.replicate (if 0 < blanks then blanks.toNat else 0) ""
      let indent := _compute_row_indent_spaces row baseLeft charH
      let joined := _join_fragments_with_spacing row charH
      let stripped := pyStrip joined
      if stripped = "" then blankLines ++ assembleRows charH lineSpacing baseLeft rest prevRow
      else
        blankLines ++
          [String.mk (List.replicate indent.toNat (Char.ofNat 32)) ++ stripped] ++
          assembleRows charH lineSpacing baseLeft rest (some row)

/-- The text of one vertical line (lines 283–287):
`(line.text or '').strip()`, skipped when empty. -/
def vertLineText (l : Line) : Except PyErr (Option String) :=
  if pyTruthy l.text then do
    let s ← pyStr l.text "strip"
    let t := pyStrip s
    pure (if t = "" then Option.none else some t)
  else pure Option.none

/-- The vertical-text pass-through (lines 278–287): vertical regions
sorted by `x`, each region's lines sorted by `x`, stripped text emitted
as-is. -/
def verticalTexts (regions : List Region) : Except PyErr (List String) := do
  let vRegions := regions.filter (fun r => pyEqStr r.dir "v")
  let sortedRegions := vRegions.insertionSort (fun a b => a.boundingBox.x ≤ b.boundingBox.x)
  let texts ← sortedRegions.mapM (fun r => do
      let sortedLines := r.lines.insertionSort (fun a b => a.boundingBox.x ≤ b.boundingBox.x)
      let ts ← sortedLines.mapM vertLineText
      pure (ts.filterMap id))
  pure texts.flatten

/-- `convert_regions_to_text_lines(regions, char_height, line_multiplier)`
(lines 249–289). -/
def convert_regions_to_text_lines (regions : List Region) (charHeight lineMultiplier : ℚ) :
    Except PyErr (List String) := do
  let fragments ← _collect_horizontal_fragments regions
  let horizLines :=
    if fragments.isEmpty then []
    else
      let lineSpacing := max 1 (charHeight * lineMultiplier)
      let grouped := _group_fragments_by_line fragments lineSpacing (2/5)
      let baseLeft := ((fragments.map Frag.x).min?).getD 0
      assembleRows charHeight lineSpacing baseLeft grouped Option.none
  let vertLines ← verticalTexts regions
  pure (horizLines ++ vertLines)

/-! ## Top-level conversion entry point -/

/-- The body of `convert_json_to_text`'s `try` block (lines 398–413):
missing `Result` raises `ValueError`; `result.get` raises
`AttributeError` on a non-dict; region parsing, estimation and
rendering raise as modelled above.  The persisted-store read performed
inside `estimate_layout_constants` is file I/O, modelled by the
`prev` parameter. -/
def convertBody (prev : LoadedConstants) (ocr_json : List (String × PyVal)) :
    Except PyErr String := do
  match ocr_json.lookup "Result" with
  | Option.none => throw (.valueError "JSON数据中缺少'Result'字段")
  | some result => do
      let regionsData ← pyGet result "regions" (.list [])
      let regionItems ← pyIter regionsData
      let regions ← regionItems.mapM Region.from_dict
      let est ← estimate_layout_constants regions prev
      let lines ← convert_regions_to_text_lines regions est.charHeight est.multiplier
      pure (String.intercalate "\n" lines)

/-- `convert_json_to_text(ocr_json)` (lines 395–416): run the body;
a `KeyError`, `TypeError` or `ValueError` is converted into the
diagnostic string `"转换失败: " + str(e)`; any other exception
(in particular `AttributeError`) propagates. -/
def convert_json_to_text (prev : LoadedConstants) (ocr_json : List (String × PyVal)) :
    Except PyErr String :=
  match convertBody prev ocr_json with
  | .ok s => .ok s
  | .error e => if isCaught e then .ok ("转换失败: " ++ e.msg) else .error e



/-! ## Concrete inputs used by counterexamples and witnesses -/

/-- A word `"中"` (one CJK ideograph) with a 1×2 bounding box. -/
def cjkWord : Word := ⟨PyVal.str "中", ⟨0, 0, 1, 2⟩⟩

/-- A line with five CJK words, no usable line-height sample (bbox
height 0, `text_height` 0). -/
def fiveWordLine : Line := ⟨PyVal.str "x", List.replicate 5 cjkWord, ⟨0, 0, 0, 0⟩, 0, ""⟩

/-- A region holding just `fiveWordLine`: the document contributes
exactly five char-height samples of value 2 and no line samples. -/
def fiveWordRegion : Region := ⟨PyVal.str "zh", PyVal.str "h", [fiveWordLine], ⟨0, 0, 0, 0⟩⟩

/-- A persisted store with `char_height = 1` and 5 previous char
samples (no multiplier history). -/
def historyFiveChars : LoadedConstants := ⟨1, 0, 5, 0⟩

/-! ## Theorems -/

/-- If one token fails to parse, `map(int, parts)` fails as a whole. -/
theorem intsOfTokens_eq_none_of_mem :
    ∀ {l : List String} {p : String}, p ∈ l → pyInt? p = Option.none →
      intsOfTokens l = Option.none := by
  intro l
  induction l with
  | nil => intro p hp; cases hp
  | cons x t ih =>
      intro p hp hf
      rcases List.mem_cons.mp hp with h | h
      · subst h
        simp [intsOfTokens, hf]
      · cases hfx : pyInt? x with
        | none => simp [intsOfTokens, hfx]
        | some b => simp [intsOfTokens, hfx, ih h hf]

/-- C2: for every input string, `BoundingBox.from_string` (a total
function, so it never raises) returns the `(0,0,0,0)` sentinel on any
malformed input: a usable-token count that is neither 4 nor 8, a token
`int` rejects, or the empty string. -/
theorem from_string_malformed_sentinel :
    ∀ s : String,
      (((usableParts s).length ≠ 4 ∧ (usableParts s).length ≠ 8) ∨
        (∃ p ∈ usableParts s, pyInt? p = Option.none) ∨ s = "") →
      BoundingBox.from_string s = ⟨0, 0, 0, 0⟩ := by
  intro s h
  rcases h with ⟨hn4, hn8⟩ | ⟨p, hp, hnone⟩ | rfl
  · simp [BoundingBox.from_string, hn4, hn8]
  · have hm : intsOfTokens (usableParts s) = Option.none :=
      intsOfTokens_eq_none_of_mem hp hnone
    simp only [BoundingBox.from_string, hm]
    split <;> [skip; split] <;> rfl
  · decide

/-- C2 witness: `"a,b"` has 2 usable tokens and parses to the sentinel. -/
theorem from_string_malformed_sentinel_w :
    (usableParts "a,b").length = 2 ∧
    BoundingBox.from_string "a,b" = ⟨0, 0, 0, 0⟩ :=
  ⟨by decide, from_string_malformed_sentinel "a,b" (Or.inl ⟨by decide, by decide⟩)⟩

/-- C9 counterexample: the 4-token input `"0,0,-5,3"` parses verbatim to
a box of width `-5 < 0`, refuting that every parsed box has
non-negative dimensions. -/
theorem from_string_negative_width_cex :
    BoundingBox.from_string "0,0,-5,3" = ⟨0, 0, -5, 3⟩ ∧
    (BoundingBox.from_string "0,0,-5,3").width < 0 := by decide

/-- C9 amended: every box produced from an input whose usable-token
count is not 4 (the 8-point form and all malformed inputs) has
non-negative width and height; a well-formed 4-token input copies its
tokens verbatim, so a negative width/height token yields negative
dimensions. -/
theorem from_string_nonneg_unless_four_tokens :
    (∀ s : String, (usableParts s).length ≠ 4 →
      0 ≤ (BoundingBox.from_string s).width ∧ 0 ≤ (BoundingBox.from_string s).height) ∧
    (∀ (s : String) (x y w h : ℤ), (usableParts s).length = 4 →
      intsOfTokens (usableParts s) = some [x, y, w, h] →
      BoundingBox.from_string s = ⟨x, y, w, h⟩) := by
  constructor
  · intro s h4
    simp only [BoundingBox.from_string, h4, if_false]
    split
    · split
      · simp only [quadBox]
        constructor <;> omega
      · exact ⟨le_refl 0, le_refl 0⟩
    · exact ⟨le_refl 0, le_refl 0⟩
  · intro s x y w h h4 hm
    simp [BoundingBox.from_string, h4, hm]

/-- C9 witness: the quad string `"0,0,4,0,4,6,0,6"` (8 tokens) yields a
non-negative box, and `"1,2,3,4"` copies its tokens verbatim. -/
theorem from_string_nonneg_unless_four_tokens_w :
    ((usableParts "0,0,4,0,4,6,0,6").length ≠ 4 ∧
      0 ≤ (BoundingBox.from_string "0,0,4,0,4,6,0,6").width ∧
      0 ≤ (BoundingBox.from_string "0,0,4,0,4,6,0,6").height) ∧
    BoundingBox.from_string "1,2,3,4" = ⟨1, 2, 3, 4⟩ :=
  ⟨⟨by decide, from_string_nonneg_unless_four_tokens.1 "0,0,4,0,4,6,0,6" (by decide)⟩,
    from_string_nonneg_unless_four_tokens.2 "1,2,3,4" 1 2 3 4 (by decide) (by decide)⟩

/-- C1 counterexample: on the input dictionary `{'Result': 5}` the
conversion raises (`result.get('regions', [])` on the int `5` raises
`AttributeError`, which the `except (KeyError, TypeError, ValueError)`
clause does not catch), refuting that `convert_json_to_text` never
raises and always returns a diagnostic string. -/
theorem convert_json_to_text_raises_cex :
    convert_json_to_text noHistory [("Result", PyVal.int 5)] =
      .error (.attributeError "'int' object has no attribute 'get'") := rfl

/-- C1 amended: `convert_json_to_text` converts every `KeyError`,
`TypeError` and `ValueError` raised while traversing the document —
including the `ValueError` for a missing `Result` key — into the
diagnostic string `"转换失败: …"` ("conversion failed: …"); the only
exception that can escape is an `AttributeError` (raised when a value
of the wrong type receives an attribute access, e.g. `'Result'` mapped
to a non-dict). -/
theorem convert_json_to_text_catches_traversal_errors :
    ∀ (prev : LoadedConstants) (d : List (String × PyVal)),
      (d.lookup "Result" = Option.none →
        convert_json_to_text prev d = .ok "转换失败: JSON数据中缺少'Result'字段") ∧
      (∀ e, convert_json_to_text prev d = .error e → ∃ m, e = PyErr.attributeError m) := by
  intro prev d
  constructor
  · intro h
    have hb : convertBody prev d = .error (.valueError "JSON数据中缺少'Result'字段") := by
      unfold convertBody
      rw [h]
      rfl
    unfold convert_json_to_text
    rw [hb]
    rfl
  · intro e he
    unfold convert_json_to_text at he
    cases hb : convertBody prev d with
    | ok s => rw [hb] at he; cases he
    | error e' =>
        rw [hb] at he
        by_cases hc : isCaught e'
        · simp [hc] at he
        · simp [hc] at he
          subst he
          cases e' with
          | keyError m => simp [isCaught] at hc
          | typeError m => simp [isCaught] at hc
          | valueError m => simp [isCaught] at hc
          | attributeError m => exact ⟨m, rfl⟩

/-- C1 witness: a dictionary without `Result` yields the diagnostic
string, and the escaping error of the counterexample input is an
`AttributeError`. -/
theorem convert_json_to_text_catches_traversal_errors_w :
    (([("page", PyVal.int 1)] : List (String × PyVal)).lookup "Result" = Option.none) ∧
    convert_json_to_text noHistory [("page", PyVal.int 1)] =
      .ok "转换失败: JSON数据中缺少'Result'字段" ∧
    (∃ m, PyErr.attributeError "'int' object has no attribute 'get'" = PyErr.attributeError m) :=
  ⟨rfl, (convert_json_to_text_catches_traversal_errors noHistory _).1 rfl,
    (convert_json_to_text_catches_traversal_errors noHistory [("Result", PyVal.int 5)]).2 _ rfl⟩

/-- Eliminator for a successful estimation: the result is `estimateCore`
on the collected samples. -/
theorem estimate_ok_elim {regions : List Region} {prev : LoadedConstants}
    {out : EstimateResult}
    (h : estimate_layout_constants regions prev = .ok out) :
    ∃ s, collectSamples regions = .ok s ∧ out = estimateCore s.1 s.2 prev := by
  unfold estimate_layout_constants at h
  cases hc : collectSamples regions with
  | error e =>
      rw [hc] at h
      cases h
  | ok s =>
      rw [hc] at h
      refine ⟨s, rfl, ?_⟩
      simp only [bind, Except.bind, pure, Except.pure] at h
      cases h
      rfl

/-- C3: whatever regions the document contains and whatever the
persisted calibration store held, the returned line-height multiplier
lies in `[1.2, 2.0]` (`max(1.2, min(2.0, ·))` is applied last). -/
theorem estimate_multiplier_in_range :
    ∀ (regions : List Region) (prev : LoadedConstants) (out : EstimateResult),
      estimate_layout_constants regions prev = .ok out →
      6/5 ≤ out.multiplier ∧ out.multiplier ≤ 2 := by
  intro regions prev out h
  obtain ⟨s, -, rfl⟩ := estimate_ok_elim h
  simp only [estimateCore]
  exact ⟨le_max_left _ _, max_le (by norm_num) (min_le_left _ _)⟩

/-- C3 witness: the empty document with an empty store yields a
multiplier inside `[1.2, 2.0]`. -/
theorem estimate_multiplier_in_range_w :
    6/5 ≤ (estimateCore [] [] noHistory).multiplier ∧
    (estimateCore [] [] noHistory).multiplier ≤ 2 :=
  estimate_multiplier_in_range [] noHistory _ rfl

/-- C4: with no persisted history (missing, unreadable or corrupt store
file, whose extraction is all zeros), fewer than 5 CJK char-height
samples force `char_height = 32.0`, and fewer than 3 line-height
samples force `multiplier = 1.5`; the two fallbacks are independent. -/
theorem estimate_defaults_without_history :
    ∀ (regions : List Region) (out : EstimateResult),
      estimate_layout_constants regions noHistory = .ok out →
      (out.counts.char < 5 → out.charHeight = 32) ∧
      (out.counts.line < 3 → out.multiplier = 3/2) := by
  intro regions out h
  obtain ⟨s, -, rfl⟩ := estimate_ok_elim h
  constructor
  · intro hlt
    simp only [estimateCore] at hlt ⊢
    have h5 : ¬ (5 ≤ s.1.length) := by omega
    simp [currentCharHeight, noHistory, h5]
  · intro hlt
    simp only [estimateCore] at hlt ⊢
    have h3 : ¬ (3 ≤ s.2.length) := by omega
    have hm : currentMultiplier s.1 s.2 = 0 := by
      simp [currentMultiplier, currentLineHeight, h3]
    simp [noHistory, hm]
    rw [min_eq_right (by norm_num), max_eq_right (by norm_num)]

/-- C4 witness: the empty document against the empty store yields
exactly `(32.0, 1.5)`. -/
theorem estimate_defaults_without_history_w :
    (estimateCore [] [] noHistory).counts.char < 5 ∧
    (estimateCore [] [] noHistory).counts.line < 3 ∧
    (estimateCore [] [] noHistory).charHeight = 32 ∧
    (estimateCore [] [] noHistory).multiplier = 3/2 :=
  ⟨by decide, by decide,
    (estimate_defaults_without_history [] _ rfl).1 (by decide),
    (estimate_defaults_without_history [] _ rfl).2 (by decide)⟩

/-- C8: the persisted sample counts are exactly
`min(1000, previous + current)`, hence never exceed 1000 and never
decrease as long as the previous stored count was itself within the
1000 cap. -/
theorem estimate_saved_counts :
    ∀ (regions : List Region) (prev : LoadedConstants) (out : EstimateResult),
      estimate_layout_constants regions prev = .ok out →
      out.saved.charN = min 1000 (prev.charN + (out.counts.char : ℤ)) ∧
      out.saved.lineN = min 1000 (prev.lineN + (out.counts.line : ℤ)) ∧
      out.saved.charN ≤ 1000 ∧ out.saved.lineN ≤ 1000 ∧
      (prev.charN ≤ 1000 → prev.charN ≤ out.saved.charN) ∧
      (prev.lineN ≤ 1000 → prev.lineN ≤ out.saved.lineN) := by
  intro regions prev out h
  obtain ⟨s, -, rfl⟩ := estimate_ok_elim h
  simp only [estimateCore]
  refine ⟨trivial, trivial, ?_, ?_, ?_, ?_⟩ <;> omega

/-- C8 witness: the empty document with a stored count of 998 keeps the
count formula and both bounds. -/
theorem estimate_saved_counts_w :
    (estimateCore [] [] ⟨1, 3/2, 998, 998⟩).saved.charN =
      min 1000 ((998 : ℤ) + ((estimateCore [] [] ⟨1, 3/2, 998, 998⟩).counts.char : ℤ)) ∧
    (estimateCore [] [] ⟨1, 3/2, 998, 998⟩).saved.charN ≤ 1000 ∧
    (998 : ℤ) ≤ (estimateCore [] [] ⟨1, 3/2, 998, 998⟩).saved.charN :=
  ⟨(estimate_saved_counts [] ⟨1, 3/2, 998, 998⟩ _ rfl).1,
    (estimate_saved_counts [] ⟨1, 3/2, 998, 998⟩ _ rfl).2.2.1,
    (estimate_saved_counts [] ⟨1, 3/2, 998, 998⟩ _ rfl).2.2.2.2.1 (by decide)⟩

/-- C5 counterexample: a document with five CJK char samples of height 2
(current median 2) against a store holding `char_height = 1` with 5
previous samples.  The claimed weight `min(0.7, 5/(5+5)) = 1/2` would
blend to `3/2`, but the code computes the weight as
`5/(5+5+1e-6)`, so the returned `char_height` is `15000001/10000001`,
which differs from `3/2`: the claimed formula (without the `1e-6`
term) does not describe the code. -/
theorem estimate_blend_epsilon_cex :
    estimate_layout_constants [fiveWordRegion] historyFiveChars =
      .ok (estimateCore [2, 2, 2, 2, 2] [] historyFiveChars) ∧
    (estimateCore [2, 2, 2, 2, 2] [] historyFiveChars).charHeight = 15000001/10000001 ∧
    min (7/10 : ℚ) ((5 : ℚ) / (5 + 5)) * 2 +
      (1 - min (7/10 : ℚ) ((5 : ℚ) / (5 + 5))) * 1 = 3/2 ∧
    (3/2 : ℚ) ≠ 15000001/10000001 := by
  refine ⟨?_, ?_, ?_, ?_⟩
  · with_unfolding_all rfl
  · with_unfolding_all rfl
  · rw [min_eq_right (by norm_num)]
    norm_num
  · norm_num

/-- C5 amended: when history exists (positive stored value,
non-negative stored count) and the current-document estimate is usable
(non-sparse and positive), the returned value is the blend
`weight * current + (1 - weight) * historical` with
`weight = min(0.7, n / (n + n_hist + 1e-6))` — the code adds a `1e-6`
guard to the denominator, so the weight is slightly below
`n / (n + n_hist)`; the blended multiplier is additionally clamped
into `[1.2, 2.0]` afterwards.  The two blends are independent. -/
theorem estimate_blend_formula :
    ∀ (charHs lineHs : List ℚ) (prev : LoadedConstants),
      (5 ≤ charHs.length → 0 < currentCharHeight charHs → 0 < prev.charHeight →
        0 ≤ prev.charN →
        (estimateCore charHs lineHs prev).charHeight =
          min (7/10) ((charHs.length : ℚ) /
              ((charHs.length : ℚ) + (prev.charN : ℚ) + 1/1000000)) *
            currentCharHeight charHs +
          (1 - min (7/10) ((charHs.length : ℚ) /
              ((charHs.length : ℚ) + (prev.charN : ℚ) + 1/1000000))) * prev.charHeight) ∧
      (3 ≤ lineHs.length → 0 < currentMultiplier charHs lineHs → 0 < prev.multiplier →
        0 ≤ prev.lineN →
        (estimateCore charHs lineHs prev).multiplier =
          max (6/5) (min 2
            (min (7/10) ((lineHs.length : ℚ) /
                ((lineHs.length : ℚ) + (prev.lineN : ℚ) + 1/1000000)) *
              currentMultiplier charHs lineHs +
            (1 - min (7/10) ((lineHs.length : ℚ) /
                ((lineHs.length : ℚ) + (prev.lineN : ℚ) + 1/1000000))) * prev.multiplier))) := by
  intro charHs lineHs prev
  constructor
  · intro h5 hcch hpch hpn
    have hn : (5 : ℚ) ≤ (charHs.length : ℚ) := by exact_mod_cast h5
    have hm : (0 : ℚ) ≤ (prev.charN : ℚ) := by exact_mod_cast hpn
    have hden : (0 : ℚ) < (charHs.length : ℚ) + (prev.charN : ℚ) + 1/1000000 := by linarith
    have hx : (0 : ℚ) < (charHs.length : ℚ) /
        ((charHs.length : ℚ) + (prev.charN : ℚ) + 1/1000000) :=
      div_pos (by linarith) hden
    have hα : (0 : ℚ) < min (7/10) ((charHs.length : ℚ) /
        ((charHs.length : ℚ) + (prev.charN : ℚ) + 1/1000000)) :=
      lt_min (by norm_num) hx
    have hα1 : min (7/10 : ℚ) ((charHs.length : ℚ) /
        ((charHs.length : ℚ) + (prev.charN : ℚ) + 1/1000000)) < 1 :=
      lt_of_le_of_lt (min_le_left _ _) (by norm_num)
    have hblend : (0 : ℚ) <
        min (7/10) ((charHs.length : ℚ) /
            ((charHs.length : ℚ) + (prev.charN : ℚ) + 1/1000000)) *
          currentCharHeight charHs +
        (1 - min (7/10) ((charHs.length : ℚ) /
            ((charHs.length : ℚ) + (prev.charN : ℚ) + 1/1000000))) * prev.charHeight := by
      have h1 := mul_pos hα hcch
      have h2 := mul_pos (by linarith : (0:ℚ) < 1 - min (7/10) ((charHs.length : ℚ) /
          ((charHs.length : ℚ) + (prev.charN : ℚ) + 1/1000000))) hpch
      linarith
    have hns : ¬ (charHs.length < 5 ∨ currentCharHeight charHs ≤ 0) := by
      push_neg
      exact ⟨by omega, hcch⟩
    simp only [estimateCore]
    rw [if_pos hpch, if_neg hns, if_neg (not_le.mpr hblend)]
  · intro h3 hcm hpm hpn
    have hn : (3 : ℚ) ≤ (lineHs.length : ℚ) := by exact_mod_cast h3
    have hm : (0 : ℚ) ≤ (prev.lineN : ℚ) := by exact_mod_cast hpn
    have hden : (0 : ℚ) < (lineHs.length : ℚ) + (prev.lineN : ℚ) + 1/1000000 := by linarith
    have hx : (0 : ℚ) < (lineHs.length : ℚ) /
        ((lineHs.length : ℚ) + (prev.lineN : ℚ) + 1/1000000) :=
      div_pos (by linarith) hden
    have hα : (0 : ℚ) < min (7/10) ((lineHs.length : ℚ) /
        ((lineHs.length : ℚ) + (prev.lineN : ℚ) + 1/1000000)) :=
      lt_min (by norm_num) hx
    have hα1 : min (7/10 : ℚ) ((lineHs.length : ℚ) /
        ((lineHs.length : ℚ) + (prev.lineN : ℚ) + 1/1000000)) < 1 :=
      lt_of_le_of_lt (min_le_left _ _) (by norm_num)
    have hblend : (0 : ℚ) <
        min (7/10) ((lineHs.length : ℚ) /
            ((lineHs.length : ℚ) + (prev.lineN : ℚ) + 1/1000000)) *
          currentMultiplier charHs lineHs +
        (1 - min (7/10) ((lineHs.length : ℚ) /
            ((lineHs.length : ℚ) + (prev.lineN : ℚ) + 1/1000000))) * prev.multiplier := by
      have h1 := mul_pos hα hcm
      have h2 := mul_pos (by linarith : (0:ℚ) < 1 - min (7/10) ((lineHs.length : ℚ) /
          ((lineHs.length : ℚ) + (prev.lineN : ℚ) + 1/1000000))) hpm
      linarith
    have hns : ¬ (lineHs.length < 3 ∨ currentMultiplier charHs lineHs ≤ 0) := by
      push_neg
      exact ⟨by omega, hcm⟩
    simp only [estimateCore]
    rw [if_pos hpm, if_neg hns, if_neg (not_le.mpr hblend)]

/-- C5 witness: five char samples of height 2 and three line samples of
height 3 against a store `⟨1, 3/2, 5, 5⟩` satisfy every hypothesis, and
both blends take the amended form. -/
theorem estimate_blend_formula_w :
    (5 ≤ ([2, 2, 2, 2, 2] : List ℚ).length) ∧
    (0 : ℚ) < currentCharHeight [2, 2, 2, 2, 2] ∧
    (0 : ℚ) < currentMultiplier [2, 2, 2, 2, 2] [3, 3, 3] ∧
    (estimateCore [2, 2, 2, 2, 2] [3, 3, 3] ⟨1, 3/2, 5, 5⟩).charHeight =
      min (7/10) ((([2, 2, 2, 2, 2] : List ℚ).length : ℚ) /
          ((([2, 2, 2, 2, 2] : List ℚ).length : ℚ) + ((5 : ℤ) : ℚ) + 1/1000000)) *
        currentCharHeight [2, 2, 2, 2, 2] +
      (1 - min (7/10) ((([2, 2, 2, 2, 2] : List ℚ).length : ℚ) /
          ((([2, 2, 2, 2, 2] : List ℚ).length : ℚ) + ((5 : ℤ) : ℚ) + 1/1000000))) * 1 ∧
    (estimateCore [2, 2, 2, 2, 2] [3, 3, 3] ⟨1, 3/2, 5, 5⟩).multiplier =
      max (6/5) (min 2
        (min (7/10) ((([3, 3, 3] : List ℚ).length : ℚ) /
            ((([3, 3, 3] : List ℚ).length : ℚ) + ((5 : ℤ) : ℚ) + 1/1000000)) *
          currentMultiplier [2, 2, 2, 2, 2] [3, 3, 3] +
        (1 - min (7/10) ((([3, 3, 3] : List ℚ).length : ℚ) /
            ((([3, 3, 3] : List ℚ).length : ℚ) + ((5 : ℤ) : ℚ) + 1/1000000))) * (3/2))) :=
  ⟨by decide, by with_unfolding_all decide, by with_unfolding_all decide,
    (estimate_blend_formula [2, 2, 2, 2, 2] [3, 3, 3] ⟨1, 3/2, 5, 5⟩).1
      (by decide) (by with_unfolding_all decide) (by with_unfolding_all decide) (by decide),
    (estimate_blend_formula [2, 2, 2, 2, 2] [3, 3, 3] ⟨1, 3/2, 5, 5⟩).2
      (by decide) (by with_unfolding_all decide) (by with_unfolding_all decide) (by decide)⟩

/-- C7: between two non-empty rows (and the positive line spacing the
caller always supplies), the number of blank lines is exactly
`floor(gap_px / line_spacing)` with
`gap_px = max(0, next_row.min_y − prev_row.max_bottom)`; in particular
a gap exactly equal to `line_spacing` yields 1 blank line and a gap
strictly below it yields 0. -/
theorem compute_blank_lines_floor :
    ∀ (prevRow currRow : List Frag) (ls : ℚ),
      prevRow ≠ [] → currRow ≠ [] → 0 < ls →
      _compute_blank_lines_between prevRow currRow ls =
        ⌊rowGapPx prevRow currRow / ls⌋ ∧
      (rowGapPx prevRow currRow = ls → _compute_blank_lines_between prevRow currRow ls = 1) ∧
      (rowGapPx prevRow currRow < ls → _compute_blank_lines_between prevRow currRow ls = 0) := by
  intro prevRow currRow ls hp hc hls
  have hgap : (0 : ℚ) ≤ rowGapPx prevRow currRow := le_max_left _ _
  have hfloor : (0 : ℤ) ≤ ⌊rowGapPx prevRow currRow / ls⌋ :=
    Int.floor_nonneg.mpr (div_nonneg hgap (le_of_lt hls))
  have heq : _compute_blank_lines_between prevRow currRow ls =
      ⌊rowGapPx prevRow currRow / ls⌋ := by
    unfold _compute_blank_lines_between
    rw [if_neg, max_eq_right hfloor]
    simp [List.isEmpty_iff, hp, hc, not_le.mpr hls]
  refine ⟨heq, ?_, ?_⟩
  · intro hgapls
    rw [heq, hgapls, div_self (ne_of_gt hls)]
    exact Int.floor_one
  · intro hlt
    rw [heq]
    rw [Int.floor_eq_zero_iff]
    constructor
    · exact div_nonneg hgap (le_of_lt hls)
    · rw [div_lt_one hls]
      exact hlt

/-- C7 witness: the spec's end-to-end numbers — previous row bottom at
20, next row top at 100, `line_spacing = 75` — give `gap = 80` and
exactly one blank line; a gap below the spacing gives zero. -/
theorem compute_blank_lines_floor_w :
    _compute_blank_lines_between [⟨"a", 0, 0, 10, 20⟩] [⟨"b", 0, 100, 10, 20⟩] 75 =
      ⌊rowGapPx [⟨"a", 0, 0, 10, 20⟩] [⟨"b", 0, 100, 10, 20⟩] / (75 : ℚ)⌋ ∧
    rowGapPx [⟨"a", 0, 0, 10, 20⟩] [⟨"c", 0, 95, 10, 20⟩] = 75 ∧
    _compute_blank_lines_between [⟨"a", 0, 0, 10, 20⟩] [⟨"c", 0, 95, 10, 20⟩] 75 = 1 ∧
    rowGapPx [⟨"a", 0, 0, 10, 20⟩] [⟨"b", 0, 30, 10, 20⟩] < 75 ∧
    _compute_blank_lines_between [⟨"a", 0, 0, 10, 20⟩] [⟨"b", 0, 30, 10, 20⟩] 75 = 0 :=
  ⟨(compute_blank_lines_floor _ _ 75 (by decide) (by decide) (by norm_num)).1,
    by with_unfolding_all decide,
    (compute_blank_lines_floor _ _ 75 (by decide) (by decide) (by norm_num)).2.1
      (by with_unfolding_all decide),
    by with_unfolding_all decide,
    (compute_blank_lines_floor _ _ 75 (by decide) (by decide) (by norm_num)).2.2
      (by with_unfolding_all decide)⟩

/-- C6 counterexample: with `line_spacing = 1` the threshold floor
`max(1.0, 0.4 * line_spacing)` equals 1, so two fragments whose
midpoints differ by `1/2` — strictly more than `0.4 * line_spacing =
2/5` — are still placed in the same row-group, refuting that a fragment
strictly more than `0.4 * line_spacing` away always starts a new
row-group. -/
theorem group_threshold_floor_cex :
    _group_fragments_by_line [⟨"a", 0, 0, 0, 0⟩, ⟨"b", 0, 0, 0, 1⟩] 1 (2/5) =
      [[⟨"a", 0, 0, 0, 0⟩, ⟨"b", 0, 0, 0, 1⟩]] ∧
    (2/5 : ℚ) * 1 < |Frag.yMid ⟨"b", 0, 0, 0, 1⟩ - Frag.yMid ⟨"a", 0, 0, 0, 0⟩| := by
  constructor
  · with_unfolding_all decide
  · with_unfolding_all decide

/-- C6 amended: for a two-fragment set the effective threshold is
`max(1.0, 0.4 * line_spacing)`: the two fragments share a single
row-group exactly when their midpoints differ by at most that
threshold, and otherwise form two row-groups.  (In particular midpoints
within `0.4 * line_spacing` always share a group; the strict converse
holds only beyond the threshold, not beyond `0.4 * line_spacing`, and
for three or more fragments membership is measured against the running
mean of the current cluster.) -/
theorem group_two_fragments_iff_threshold :
    ∀ (f g : Frag) (ls : ℚ),
      (_group_fragments_by_line [f, g] ls (2/5)).length =
        if |g.yMid - f.yMid| ≤ max 1 (2/5 * ls) then 1 else 2 := by
  intro f g ls
  unfold _group_fragments_by_line sortByYMid
  simp only [List.insertionSort, List.orderedInsert]
  by_cases hfg : f.yMid ≤ g.yMid
  · rw [if_pos hfg]
    by_cases habs : |g.yMid - f.yMid| ≤ max 1 (2/5 * ls)
    · rw [if_pos habs]
      simp only [groupGo, if_pos habs]
      simp [sortByX, List.length_insertionSort]
    · rw [if_neg habs]
      simp only [groupGo, if_neg habs]
      simp [sortByX, List.length_insertionSort]
  · rw [if_neg hfg]
    have hcomm : |f.yMid - g.yMid| = |g.yMid - f.yMid| := abs_sub_comm _ _
    by_cases habs : |g.yMid - f.yMid| ≤ max 1 (2/5 * ls)
    · rw [if_pos habs]
      simp only [groupGo, hcomm, if_pos habs]
      simp [sortByX, List.length_insertionSort]
    · rw [if_neg habs]
      simp only [groupGo, hcomm, if_neg habs]
      simp [sortByX, List.length_insertionSort]

/-- Sorting a non-empty cluster by `x` keeps it non-empty. -/
theorem sortByX_ne_nil {cur : List Frag} (h : cur ≠ []) : sortByX cur ≠ [] := by
  intro hnil
  apply h
  have hl := List.length_insertionSort (fun a b : Frag => a.x ≤ b.x) cur
  unfold sortByX at hnil
  rw [hnil] at hl
  exact List.eq_nil_of_length_eq_zero hl.symm

/-- The clustering loop emits, in total, exactly the fragments it was
fed: the concatenation of its groups is a permutation of the current
cluster followed by the remaining items. -/
theorem groupGo_flatten_perm (th : ℚ) :
    ∀ (items cur : List Frag) (cm : ℚ),
      ((groupGo th items cur cm).flatten).Perm (cur ++ items) := by
  intro items
  induction items with
  | nil =>
      intro cur cm
      simp only [groupGo, List.flatten]
      simpa using List.perm_insertionSort (fun a b : Frag => a.x ≤ b.x) cur
  | cons a rest ih =>
      intro cur cm
      unfold groupGo
      by_cases h : |a.yMid - cm| ≤ th
      · rw [if_pos h]
        have := ih (cur ++ [a]) ((cm * (cur.length : ℚ) + a.yMid) / ((cur.length : ℚ) + 1))
        simpa using this
      · rw [if_neg h]
        simp only [List.flatten_cons]
        have h1 : (sortByX cur).Perm cur :=
          List.perm_insertionSort (fun a b : Frag => a.x ≤ b.x) cur
        have h2 := ih [a] a.yMid
        simpa using h1.append h2

/-- Every group the clustering loop emits is non-empty (given that the
current cluster is). -/
theorem groupGo_ne_nil (th : ℚ) :
    ∀ (items cur : List Frag) (cm : ℚ), cur ≠ [] →
      ∀ g ∈ groupGo th items cur cm, g ≠ [] := by
  intro items
  induction items with
  | nil =>
      intro cur cm hcur g hg
      simp only [groupGo, List.mem_singleton] at hg
      subst hg
      exact sortByX_ne_nil hcur
  | cons a rest ih =>
      intro cur cm hcur g hg
      unfold groupGo at hg
      by_cases h : |a.yMid - cm| ≤ th
      · rw [if_pos h] at hg
        exact ih (cur ++ [a]) _ (by simp) g hg
      · rw [if_neg h] at hg
        rcases List.mem_cons.mp hg with h' | h'
        · subst h'
          exact sortByX_ne_nil hcur
        · exact ih [a] a.yMid (by simp) g h'

/-- C10: for every fragment list (and any spacing and ratio), the
row-groups returned by `_group_fragments_by_line` form a partition of
the input: no group is empty and the concatenation of all groups is a
permutation of the input fragments — so every input fragment lands in
exactly one group, with multiplicity respected. -/
theorem group_fragments_partition :
    ∀ (fragments : List Frag) (ls ratio : ℚ),
      ((_group_fragments_by_line fragments ls ratio).flatten).Perm fragments ∧
      ∀ g ∈ _group_fragments_by_line fragments ls ratio, g ≠ [] := by
  intro fragments ls ratio
  unfold _group_fragments_by_line
  cases hs : sortByYMid fragments with
  | nil =>
      have hp : (sortByYMid fragments).Perm fragments :=
        List.perm_insertionSort (fun a b : Frag => a.yMid ≤ b.yMid) fragments
      rw [hs] at hp
      have : fragments = [] := hp.symm.eq_nil
      subst this
      simp
  | cons a rest =>
      have hp : (sortByYMid fragments).Perm fragments :=
        List.perm_insertionSort (fun a b : Frag => a.yMid ≤ b.yMid) fragments
      rw [hs] at hp
      constructor
      · exact (groupGo_flatten_perm _ rest [a] a.yMid).trans (by simpa using hp)
      · exact groupGo_ne_nil _ rest [a] a.yMid (by simp)

/-- C10 witness: on a concrete two-fragment input the groups flatten to
a permutation of the input and the (only) group is non-empty. -/
theorem group_fragments_partition_w :
    (((_group_fragments_by_line [⟨"a", 0, 9, 2, 2⟩, ⟨"b", 0, 0, 2, 2⟩] 4 (2/5)).flatten).Perm
      [⟨"a", 0, 9, 2, 2⟩, ⟨"b", 0, 0, 2, 2⟩]) ∧
    ([⟨"b", 0, 0, 2, 2⟩] : List Frag) ≠ [] :=
  ⟨(group_fragments_partition [⟨"a", 0, 9, 2, 2⟩, ⟨"b", 0, 0, 2, 2⟩] 4 (2/5)).1,
    (group_fragments_partition [⟨"a", 0, 9, 2, 2⟩, ⟨"b", 0, 0, 2, 2⟩] 4 (2/5)).2
      [⟨"b", 0, 0, 2, 2⟩] (by with_unfolding_all decide)⟩
